import Mathlib

/-!
Verification of the IOHMM base class (`base.py`) of the repository.

The numeric arrays of the source are embedded as lists of rationals:
a vector is a `List ℚ`, a matrix a `List (List ℚ)`, and a tensor a
`List (List (List ℚ))`, always time-major where a time axis is present.
Floating-point numbers are modelled by `ℚ`; the transcendental final
step of the forward pass (`np.exp`, `np.log`) is modelled over `ℝ`.
Division is the total division of `ℚ`, whose value at a zero divisor
is `0` (where IEEE arithmetic yields `inf`); no claim below depends on
the value of a division by zero except where this is stated explicitly.
-/

/-- Element-wise product of two equally long vectors, as in the
`numpy` expression `a * b` on one-dimensional arrays
(base.py lines 177 and 182). -/
def elemMul (a b : List ℚ) : List ℚ := List.zipWith (fun x y => x * y) a b

/-- `np.dot(m.T, v[np.newaxis].T).flatten()` for a matrix `m` and a
vector `v` (base.py lines 177 and 182): entry `j` of the result is
`sum over i of m[i][j] * v[i]`.  The result length is the row length
of `m`, as for a square `m` in the source. -/
def matTvec (m : List (List ℚ)) (v : List ℚ) : List ℚ :=
  (List.range (m.headD []).length).map fun j =>
    (List.zipWith (fun row x => row.getD j 0 * x) m v).sum

/-- One step of the scaled forward recursion (base.py lines 177-179 for
`t = 0` with `prev = startprob`, and lines 182-184 for `t >= 1` with
`prev = fwdlattice[t-1]`): the unscaled row is the element-wise product
of `m.T · prev` with the frame likelihood row, the scaling factor is
`1 / sum` of that row, and the stored row is the unscaled row rescaled
by the factor. -/
def forwardStep (tm0 : List (List ℚ)) (prev flt : List ℚ) : List ℚ × ℚ :=
  let unscaled := elemMul (matTvec tm0 prev) flt
  let c := 1 / unscaled.sum
  (unscaled.map fun x => x * c, c)

/-- The loop of `_do_forward_pass` (base.py lines 177-184), producing
the rows of `fwdlattice` and the `scaling_factors`.  The source indexes
`transmat[0]` both in the initial step (line 177) and inside the loop
(line 182), so the whole recursion uses a single matrix `tm0`.
For an empty `framelogprob` the source would raise an
IndexError at line 177; the loop returns empty lists there, and every
theorem below assumes at least one time step. -/
def forwardLoop (tm0 : List (List ℚ)) : List ℚ → List (List ℚ) → List (List ℚ) × List ℚ
  | _, [] => ([], [])
  | prev, flt :: rest =>
    let step := forwardStep tm0 prev flt
    let next := forwardLoop tm0 step.1 rest
    (step.1 :: next.1, step.2 :: next.2)

/-- The rational part of `_do_forward_pass` (base.py lines 174-184):
from `startprob`, `transmat` and `framelogprob` it returns
`(fwdlattice, scaling_factors)`.  Only `transmat[0]` is ever read,
exactly as in the source. -/
def forwardRecursion (startprob : List ℚ) (transmat : List (List (List ℚ)))
    (framelogprob : List (List ℚ)) : List (List ℚ) × List ℚ :=
  forwardLoop (transmat.headD []) startprob framelogprob

/-- The returned likelihood of `_do_forward_pass` (base.py line 186):
`np.exp(-1 * np.sum(np.log(scaling_factors)))`. -/
noncomputable def forwardLikelihood (cs : List ℚ) : ℝ :=
  Real.exp (-1 * (cs.map fun c => Real.log (c : ℝ)).sum)

/-- `_do_forward_pass` (base.py lines 168-188): returns the pair
`(likelihood, fwdlattice)`; the scaling factors, stored on `self` by
the source, are recovered through `forwardRecursion`. -/
noncomputable def doForwardPass (startprob : List ℚ) (transmat : List (List (List ℚ)))
    (framelogprob : List (List ℚ)) : ℝ × List (List ℚ) :=
  (forwardLikelihood (forwardRecursion startprob transmat framelogprob).2,
   (forwardRecursion startprob transmat framelogprob).1)

/-- One non-terminal row of `_do_backward_pass` (base.py lines 196-200):
entry `i` accumulates `transmat[t][i][j] * bwdlattice[t+1][j] *
framelogprob[t+1][j]` over `j` in `range n` and the row is then rescaled
by the scaling factor of time `t`.  Here `tmt` is `transmat[t]`,
`flnext` is `framelogprob[t+1]`, `next` is `bwdlattice[t+1]` and `c` is
`scaling_factors[t]`. -/
def backwardRow (n : ℕ) (tmt : List (List ℚ)) (flnext next : List ℚ) (c : ℚ) : List ℚ :=
  (List.range n).map fun i =>
    c * ((List.range n).map fun j =>
      (tmt.getD i []).getD j 0 * next.getD j 0 * flnext.getD j 0).sum

/-- `_do_backward_pass` (base.py lines 190-201), recursing on the frame
likelihood rows: the terminal row (line 194) is `np.ones(n)` rescaled by
the last scaling factor, and each earlier row is `backwardRow` applied
to the matrix, likelihood row and backward row of the next time step.
The three list arguments are `transmat`, `framelogprob` and the
`scaling_factors` stored by the forward pass, all of length `T`.
For an empty `framelogprob` the source would raise an IndexError at
line 194; the recursion returns an empty list there, and every theorem
below assumes at least one time step. -/
def doBackwardPass (n : ℕ) : List (List (List ℚ)) → List (List ℚ) → List ℚ → List (List ℚ)
  | tmt :: tmrest, _ :: flnext :: flrest, c :: crest =>
    let rest := doBackwardPass n tmrest (flnext :: flrest) crest
    backwardRow n tmt flnext (rest.headD []) c :: rest
  | _, [_], c :: _ => [List.replicate n c]
  | _, _, _ => []

/-- `_compute_sufficient_static` (base.py lines 143-165) with `n`
states: it returns the pair `(trans_posts, state_posts)`.
`trans_posts[0][i][j]` is
`framelogprob[0][i] * startprob[j] * bwdlattice[0][i] * transmat[0][j][i] / lpr`
(line 150), `trans_posts[t][i][j]` for `t >= 1` is
`framelogprob[t][i] * fwdlattice[t-1][j] * bwdlattice[t][i] * transmat[t][j][i] / lpr`
(line 155), and `state_posts[t][i]` is
`fwdlattice[t][i] * bwdlattice[t][i]` divided by `lpr` (lines 163-164;
the source divides the whole matrix by `lpr` after filling it, which is
the same entry-wise value).  In the source the results are stored on
`self`; here they are returned. -/
def computeSufficientStatic (n : ℕ) (startprob : List ℚ)
    (transmat : List (List (List ℚ))) (framelogprob fwdlattice bwdlattice : List (List ℚ))
    (lpr : ℚ) : List (List (List ℚ)) × List (List ℚ) :=
  let T := framelogprob.length
  ((List.range T).map fun t =>
    (List.range n).map fun i => (List.range n).map fun j =>
      if t = 0 then
        (framelogprob.getD 0 []).getD i 0 * startprob.getD j 0 *
          (bwdlattice.getD 0 []).getD i 0 * ((transmat.getD 0 []).getD j []).getD i 0 / lpr
      else
        (framelogprob.getD t []).getD i 0 * (fwdlattice.getD (t - 1) []).getD j 0 *
          (bwdlattice.getD t []).getD i 0 * ((transmat.getD t []).getD j []).getD i 0 / lpr,
   (List.range T).map fun t =>
    (List.range n).map fun i =>
      (fwdlattice.getD t []).getD i 0 * (bwdlattice.getD t []).getD i 0 / lpr)

/-- The model state of `_BaseIOHMM` (base.py lines 68-85): the fields
set by the constructor that the training entry point reads.  The
attributes written only by the (unreachable) E-step, such as
`scaling_factors` and the posteriors, are not part of the state. -/
structure IOHMM where
  nComponents : ℕ
  startprob : List ℚ
  transWeightMat : List (List (List ℚ))
  ins : List (List (List ℚ))
  nIter : ℕ
  thresh : ℚ

/-- `_compute_transmat` (base.py lines 131-141).  The first statement
of the body is
`transmat = np.tile(0.0, (len(ins_seq, self.n_components, self.n_components)))`,
whose inner call passes three arguments to the one-argument builtin
`len`; this raises `TypeError` unconditionally before anything else in
the body runs, so the denotation of the method is that error for every
input.  The rest of the body is unreachable (and itself defective: it
never appends the bias 1 to the input vector even though
`trans_weight_mat` rows have length `input_dim + 1`, and it stores each
softmax row at `transmat[i]` instead of `transmat[t][i]`). -/
def computeTransmat (_m : IOHMM) (_insSeq : List (List ℚ)) :
    Except String (List (List (List ℚ))) :=
  Except.error "TypeError: len() takes exactly one argument (3 given)"

/-- The E-step of `fit` on the first sequence of the corpus (base.py
lines 105-117).  The source first reads `self.ins[i]` (IndexError when
`ins` is empty) and then calls `self._compute_transmat(ins_seq)`, which
always raises.  Control never reaches the later statements: the base
class does not define `_compute_likelihood` (AttributeError), and the
calls to `_do_forward_pass`, `_do_backward_pass` and
`_compute_sufficient_static` each pass one positional argument more
than the method accepts (TypeError).  The value would be the `lpr` of
the sequence; no path produces one. -/
def fitEStepFirstSeq (m : IOHMM) : Except String ℚ :=
  match m.ins with
  | [] => Except.error "IndexError: list index out of range"
  | insSeq :: _ =>
    match computeTransmat m insSeq with
    | Except.error e => Except.error e
    | Except.ok _ =>
      Except.error "AttributeError: _BaseIOHMM instance has no attribute _compute_likelihood"

/-- One iteration of the outer EM loop of `fit` up to the point where
`lpr` is appended to `logprob` (base.py lines 103-118).  With a
non-empty corpus the inner sequence loop raises on its first sequence,
so the remaining sequences are unreachable and only the first is
modelled.  With an empty corpus the inner loop body never runs and
`logprob.append(lpr)` at line 118 reads the never-assigned variable
`lpr`, raising NameError. -/
def fitIter (m : IOHMM) (obs : List (List (List ℚ))) : Except String ℚ :=
  match obs with
  | [] => Except.error "NameError: name lpr is not defined"
  | _ :: _ => fitEStepFirstSeq m

/-- The outer EM loop of `fit` (base.py lines 101-123), with the
iteration budget as fuel.  After a successful iteration the source
checks `i > 0 and logprob[-1] - logprob[-2] < self.thresh`; at that
point `i` is the variable of the inner sequence loop, which shadows the
iteration counter, so the guard compares `len(obs) - 1` with zero.
When the guard passes, `logprob[-2]` raises IndexError if fewer than
two likelihoods were recorded, and otherwise the strict comparison with
`thresh` decides between breaking and continuing; `_do_mstep` (a no-op
in the base class, line 129) runs only when the loop continues.  All of
this is unreachable because `fitIter` always raises. -/
def fitLoop (m : IOHMM) (obs : List (List (List ℚ))) : List ℚ → ℕ → Except String IOHMM
  | _, 0 => Except.ok m
  | lp, k + 1 =>
    match fitIter m obs with
    | Except.error e => Except.error e
    | Except.ok lpr =>
      let lp2 := lp ++ [lpr]
      if 0 < obs.length - 1 then
        if lp2.length < 2 then Except.error "IndexError: list index out of range"
        else if lp2.getD (lp2.length - 1) 0 - lp2.getD (lp2.length - 2) 0 < m.thresh then
          Except.ok m
        else fitLoop m obs lp2 k
      else fitLoop m obs lp2 k

/-- `fit` (base.py lines 88-123): `self._init(obs, self.init_params)`
is a no-op in the base class (line 213), `logprob` starts empty, and
the EM loop runs for at most `n_iter` iterations. -/
def fit (m : IOHMM) (obs : List (List (List ℚ))) : Except String IOHMM :=
  fitLoop m obs [] m.nIter

-- ### Helper lemmas about the forward loop

theorem forwardLoop_length (tm0 : List (List ℚ)) :
    ∀ (fls : List (List ℚ)) (prev : List ℚ),
      (forwardLoop tm0 prev fls).1.length = fls.length ∧
      (forwardLoop tm0 prev fls).2.length = fls.length := by
  intro fls
  induction fls with
  | nil => intro prev; constructor <;> rfl
  | cons f rest ih =>
    intro prev
    simp only [forwardLoop, List.length_cons]
    constructor
    · simpa using (ih (forwardStep tm0 prev f).1).1
    · simpa using (ih (forwardStep tm0 prev f).1).2

theorem forwardLoop_getD (tm0 : List (List ℚ)) :
    ∀ (fls : List (List ℚ)) (prev : List ℚ) (t : ℕ), t < fls.length →
      (forwardLoop tm0 prev fls).1.getD t [] =
        (forwardStep tm0
          (if t = 0 then prev else (forwardLoop tm0 prev fls).1.getD (t - 1) [])
          (fls.getD t [])).1 ∧
      (forwardLoop tm0 prev fls).2.getD t 0 =
        (forwardStep tm0
          (if t = 0 then prev else (forwardLoop tm0 prev fls).1.getD (t - 1) [])
          (fls.getD t [])).2 := by
  intro fls
  induction fls with
  | nil => intro prev t ht; simp at ht
  | cons f rest ih =>
    intro prev t ht
    match t with
    | 0 =>
      simp [forwardLoop]
    | Nat.succ k =>
      have hk : k < rest.length := by
        simpa [Nat.succ_lt_succ_iff] using ht
      have ihk := ih (forwardStep tm0 prev f).1 k hk
      have hcons :
          ((forwardStep tm0 prev f).1 ::
              (forwardLoop tm0 (forwardStep tm0 prev f).1 rest).1).getD k [] =
            (if k = 0 then (forwardStep tm0 prev f).1
             else (forwardLoop tm0 (forwardStep tm0 prev f).1 rest).1.getD (k - 1) []) := by
        cases k with
        | zero => simp
        | succ j => simp
      simp only [forwardLoop, List.getD_cons_succ, Nat.succ_ne_zero, if_false,
        Nat.succ_sub_one]
      rw [hcons]
      exact ihk

/-- Claim C1: for a forward pass with at least one time step, the
initial scaling factor is one over the sum of the unscaled initial row
`(transmat[0].T · startprob) ⊙ framelogprob[0]`, the stored initial row
is that unscaled row rescaled by the factor, and the returned
likelihood is `exp(-sum over t of log(scaling_factors[t]))`. -/
theorem forward_pass_initial_and_likelihood (sp : List ℚ)
    (tm : List (List (List ℚ))) (fl : List (List ℚ)) (h : 0 < fl.length) :
    (forwardRecursion sp tm fl).2.getD 0 0 =
      1 / (elemMul (matTvec (tm.headD []) sp) (fl.headD [])).sum ∧
    (forwardRecursion sp tm fl).1.getD 0 [] =
      (elemMul (matTvec (tm.headD []) sp) (fl.headD [])).map
        (fun x => x * (1 / (elemMul (matTvec (tm.headD []) sp) (fl.headD [])).sum)) ∧
    (doForwardPass sp tm fl).1 =
      Real.exp (-((forwardRecursion sp tm fl).2.map fun c => Real.log (c : ℝ)).sum) := by
  match fl, h with
  | flt :: rest, _ =>
    refine ⟨?_, ?_, ?_⟩
    · simp [forwardRecursion, forwardLoop, forwardStep]
    · simp [forwardRecursion, forwardLoop, forwardStep]
    · simp only [doForwardPass, forwardLikelihood, neg_one_mul]

/-- Claim C2: for every time step `t` with `1 <= t <= T-1`, the stored
row `fwdlattice[t]` is the element-wise product of
`transmat[0].T · fwdlattice[t-1]` with `framelogprob[t]` rescaled by
`scaling_factors[t] = 1 / sum` of the unscaled row; the head matrix
`transmat[0]` is used at every step, so the result is unchanged under
any replacement of `transmat` that keeps the same head. -/
theorem forward_recursion_reuses_first_transmat (sp : List ℚ)
    (tm tm2 : List (List (List ℚ))) (fl : List (List ℚ)) (t : ℕ)
    (ht1 : 1 ≤ t) (ht2 : t < fl.length) (htm : tm2.headD [] = tm.headD []) :
    (forwardRecursion sp tm fl).1.getD t [] =
      (elemMul (matTvec (tm.headD []) ((forwardRecursion sp tm fl).1.getD (t - 1) []))
          (fl.getD t [])).map
        (fun x => x *
          (1 / (elemMul (matTvec (tm.headD [])
              ((forwardRecursion sp tm fl).1.getD (t - 1) [])) (fl.getD t [])).sum)) ∧
    (forwardRecursion sp tm fl).2.getD t 0 =
      1 / (elemMul (matTvec (tm.headD []) ((forwardRecursion sp tm fl).1.getD (t - 1) []))
          (fl.getD t [])).sum ∧
    forwardRecursion sp tm2 fl = forwardRecursion sp tm fl := by
  have hspec := forwardLoop_getD (tm.headD []) fl sp t ht2
  have hne : t ≠ 0 := Nat.one_le_iff_ne_zero.mp ht1
  rw [if_neg hne] at hspec
  refine ⟨?_, ?_, ?_⟩
  · simpa [forwardRecursion, forwardStep] using hspec.1
  · simpa [forwardRecursion, forwardStep] using hspec.2
  · simp only [forwardRecursion]
    rw [htm]

/-- Witness for claim C2 at `t = 1` with a length 2 sequence; the
alternative transition tensor differs from the original away from its
head, exhibiting that only `transmat[0]` matters. -/
theorem forward_recursion_reuses_first_transmat_witness :
    ((1 : ℕ) ≤ 1 ∧ (1 : ℕ) < ([[(1 : ℚ)], [1]] : List (List ℚ)).length ∧
      ([[[(1 : ℚ)]], [[5]]] : List (List (List ℚ))).headD [] =
        ([[[(1 : ℚ)]]] : List (List (List ℚ))).headD []) ∧
    ((forwardRecursion [1] [[[1]]] [[1], [1]]).1.getD 1 [] =
      (elemMul (matTvec ([[[(1 : ℚ)]]].headD [])
          ((forwardRecursion [1] [[[1]]] [[1], [1]]).1.getD 0 []))
          (([[(1 : ℚ)], [1]] : List (List ℚ)).getD 1 [])).map
        (fun x => x *
          (1 / (elemMul (matTvec ([[[(1 : ℚ)]]].headD [])
              ((forwardRecursion [1] [[[1]]] [[1], [1]]).1.getD 0 []))
              (([[(1 : ℚ)], [1]] : List (List ℚ)).getD 1 [])).sum)) ∧
    (forwardRecursion [1] [[[1]]] [[1], [1]]).2.getD 1 0 =
      1 / (elemMul (matTvec ([[[(1 : ℚ)]]].headD [])
          ((forwardRecursion [1] [[[1]]] [[1], [1]]).1.getD 0 []))
          (([[(1 : ℚ)], [1]] : List (List ℚ)).getD 1 [])).sum ∧
    forwardRecursion [1] [[[1]], [[5]]] [[1], [1]] =
      forwardRecursion [1] [[[1]]] [[1], [1]]) :=
  ⟨⟨by decide, by decide, by decide⟩,
    forward_recursion_reuses_first_transmat [1] [[[1]]] [[[1]], [[5]]] [[1], [1]] 1
      (by decide) (by decide) (by decide)⟩

/-- Witness for claim C1 at `startprob = [1]`, `transmat = [[[1]]]`,
`framelogprob = [[1]]`. -/
theorem forward_pass_initial_and_likelihood_witness :
    (0 : ℕ) < ([[(1 : ℚ)]] : List (List ℚ)).length ∧
    ((forwardRecursion [1] [[[1]]] [[1]]).2.getD 0 0 =
      1 / (elemMul (matTvec ([[[(1 : ℚ)]]].headD []) [1]) ([[(1 : ℚ)]].headD [])).sum ∧
    (forwardRecursion [1] [[[1]]] [[1]]).1.getD 0 [] =
      (elemMul (matTvec ([[[(1 : ℚ)]]].headD []) [1]) ([[(1 : ℚ)]].headD [])).map
        (fun x => x *
          (1 / (elemMul (matTvec ([[[(1 : ℚ)]]].headD []) [1]) ([[(1 : ℚ)]].headD [])).sum)) ∧
    (doForwardPass [1] [[[1]]] [[1]]).1 =
      Real.exp (-((forwardRecursion [1] [[[1]]] [[1]]).2.map fun c => Real.log (c : ℝ)).sum)) :=
  ⟨by decide, forward_pass_initial_and_likelihood [1] [[[1]]] [[1]] (by decide)⟩

-- ### Helper lemmas about the backward pass

theorem headD_eq_getD_zero {α : Type} (l : List α) (d : α) : l.headD d = l.getD 0 d := by
  cases l <;> rfl

theorem doBackwardPass_length (n : ℕ) :
    ∀ (fls : List (List ℚ)) (tms : List (List (List ℚ))) (cs : List ℚ),
      tms.length = fls.length → cs.length = fls.length →
      (doBackwardPass n tms fls cs).length = fls.length := by
  intro fls
  induction fls with
  | nil =>
    intro tms cs h1 h2
    cases tms <;> cases cs <;> simp [doBackwardPass]
  | cons f rest ih =>
    intro tms cs h1 h2
    cases tms with
    | nil => simp at h1
    | cons a tms2 =>
      cases cs with
      | nil => simp at h2
      | cons c cs2 =>
        cases rest with
        | nil => simp [doBackwardPass]
        | cons g r =>
          have h1r : tms2.length = (g :: r).length := by simpa using h1
          have h2r : cs2.length = (g :: r).length := by simpa using h2
          simp [doBackwardPass, ih tms2 cs2 h1r h2r]

theorem doBackwardPass_last (n : ℕ) :
    ∀ (fls : List (List ℚ)) (tms : List (List (List ℚ))) (cs : List ℚ),
      tms.length = fls.length → cs.length = fls.length → 0 < fls.length →
      (doBackwardPass n tms fls cs).getD (fls.length - 1) [] =
        List.replicate n (cs.getD (fls.length - 1) 0) := by
  intro fls
  induction fls with
  | nil => intro tms cs h1 h2 h0; simp at h0
  | cons f rest ih =>
    intro tms cs h1 h2 h0
    cases tms with
    | nil => simp at h1
    | cons a tms2 =>
      cases cs with
      | nil => simp at h2
      | cons c cs2 =>
        cases rest with
        | nil => simp [doBackwardPass]
        | cons g r =>
          have h1r : tms2.length = (g :: r).length := by simpa using h1
          have h2r : cs2.length = (g :: r).length := by simpa using h2
          have hrec := ih tms2 cs2 h1r h2r (by simp)
          simp only [doBackwardPass, List.length_cons]
          have hidx : r.length + 1 + 1 - 1 = (r.length + 1 - 1) + 1 := by omega
          rw [hidx, List.getD_cons_succ, List.getD_cons_succ]
          simpa using hrec

theorem doBackwardPass_rec (n : ℕ) :
    ∀ (fls : List (List ℚ)) (tms : List (List (List ℚ))) (cs : List ℚ) (t : ℕ),
      tms.length = fls.length → cs.length = fls.length → t + 1 < fls.length →
      (doBackwardPass n tms fls cs).getD t [] =
        backwardRow n (tms.getD t []) (fls.getD (t + 1) [])
          ((doBackwardPass n tms fls cs).getD (t + 1) []) (cs.getD t 0) := by
  intro fls
  induction fls with
  | nil => intro tms cs t h1 h2 ht; simp at ht
  | cons f rest ih =>
    intro tms cs t h1 h2 ht
    cases tms with
    | nil => simp at h1
    | cons a tms2 =>
      cases cs with
      | nil => simp at h2
      | cons c cs2 =>
        cases rest with
        | nil => simp at ht
        | cons g r =>
          have h1r : tms2.length = (g :: r).length := by simpa using h1
          have h2r : cs2.length = (g :: r).length := by simpa using h2
          cases t with
          | zero =>
            have hhead := headD_eq_getD_zero (doBackwardPass n tms2 (g :: r) cs2) ([] : List ℚ)
            simp only [doBackwardPass, List.getD_cons_zero, List.getD_cons_succ]
            rw [hhead]
          | succ k =>
            have hk : k + 1 < (g :: r).length := by
              simp only [List.length_cons] at ht ⊢
              omega
            have hrec := ih tms2 cs2 k h1r h2r hk
            simp only [doBackwardPass, List.getD_cons_succ]
            exact hrec

/-- Claim C3: the backward pass seeds its terminal row with the last
scaling factor uniformly across the `n` states, and each earlier row
satisfies `bwdlattice[t][i] = scaling_factors[t] * sum over j of
(transmat[t][i][j] * bwdlattice[t+1][j] * framelogprob[t+1][j])`,
with the time-varying `transmat[t]`. -/
theorem backward_pass_terminal_and_recursion (n : ℕ)
    (tms : List (List (List ℚ))) (fls : List (List ℚ)) (cs : List ℚ) (t : ℕ)
    (h1 : tms.length = fls.length) (h2 : cs.length = fls.length)
    (ht : t + 1 < fls.length) :
    (doBackwardPass n tms fls cs).getD (fls.length - 1) [] =
      List.replicate n (cs.getD (fls.length - 1) 0) ∧
    (doBackwardPass n tms fls cs).getD t [] =
      (List.range n).map (fun i =>
        cs.getD t 0 * ((List.range n).map fun j =>
          ((tms.getD t []).getD i []).getD j 0 *
            ((doBackwardPass n tms fls cs).getD (t + 1) []).getD j 0 *
            (fls.getD (t + 1) []).getD j 0).sum) := by
  refine ⟨doBackwardPass_last n fls tms cs h1 h2 (by omega), ?_⟩
  rw [doBackwardPass_rec n fls tms cs t h1 h2 ht]
  simp [backwardRow]

/-- Witness for claim C3 with one state, two time steps,
`transmat = [[[2]], [[3]]]`, `framelogprob = [[1], [4]]` and
`scaling_factors = [5, 7]`: the terminal row is `[7]` and row 0 is
`[5 * (2 * 7 * 4)] = [280]`. -/
theorem backward_pass_terminal_and_recursion_witness :
    (([[[(2 : ℚ)]], [[3]]] : List (List (List ℚ))).length =
        ([[(1 : ℚ)], [4]] : List (List ℚ)).length ∧
      ([(5 : ℚ), 7] : List ℚ).length = ([[(1 : ℚ)], [4]] : List (List ℚ)).length ∧
      (0 : ℕ) + 1 < ([[(1 : ℚ)], [4]] : List (List ℚ)).length) ∧
    ((doBackwardPass 1 [[[2]], [[3]]] [[1], [4]] [5, 7]).getD
        (([[(1 : ℚ)], [4]] : List (List ℚ)).length - 1) [] =
      List.replicate 1 (([(5 : ℚ), 7] : List ℚ).getD
        (([[(1 : ℚ)], [4]] : List (List ℚ)).length - 1) 0) ∧
    (doBackwardPass 1 [[[2]], [[3]]] [[1], [4]] [5, 7]).getD 0 [] =
      (List.range 1).map (fun i =>
        ([(5 : ℚ), 7] : List ℚ).getD 0 0 * ((List.range 1).map fun j =>
          ((([[[(2 : ℚ)]], [[3]]] : List (List (List ℚ))).getD 0 []).getD i []).getD j 0 *
            ((doBackwardPass 1 [[[2]], [[3]]] [[1], [4]] [5, 7]).getD (0 + 1) []).getD j 0 *
            (([[(1 : ℚ)], [4]] : List (List ℚ)).getD (0 + 1) []).getD j 0).sum)) :=
  ⟨⟨by decide, by decide, by decide⟩,
    backward_pass_terminal_and_recursion 1 [[[2]], [[3]]] [[1], [4]] [5, 7] 0
      (by decide) (by decide) (by decide)⟩

-- ### Helper lemma for indexing a mapped range

theorem getD_range_map {α : Type} (f : ℕ → α) (d : α) {T t : ℕ} (h : t < T) :
    ((List.range T).map f).getD t d = f t := by
  rw [List.getD_eq_getElem?_getD]
  simp [List.getElem?_range h]

/-- Claim C4: every entry of the sufficient statistics follows the
stated formulas: at `t = 0` the transition posterior multiplies the
frame likelihood, the start probability, the backward value and the
transposed transition entry and divides by `lpr`; at `t >= 1` the start
probability is replaced by `fwdlattice[t-1][j]`; and the state
posterior is `fwdlattice[t][i] * bwdlattice[t][i] / lpr`. -/
theorem sufficient_statistics_entries (n : ℕ) (sp : List ℚ)
    (tm : List (List (List ℚ))) (fl fwd bwd : List (List ℚ)) (lpr : ℚ)
    (t i j : ℕ) (ht : t < fl.length) (hi : i < n) (hj : j < n) :
    (((computeSufficientStatic n sp tm fl fwd bwd lpr).1.getD t []).getD i []).getD j 0 =
      (if t = 0 then
        (fl.getD 0 []).getD i 0 * sp.getD j 0 * (bwd.getD 0 []).getD i 0 *
          ((tm.getD 0 []).getD j []).getD i 0 / lpr
      else
        (fl.getD t []).getD i 0 * (fwd.getD (t - 1) []).getD j 0 *
          (bwd.getD t []).getD i 0 * ((tm.getD t []).getD j []).getD i 0 / lpr) ∧
    ((computeSufficientStatic n sp tm fl fwd bwd lpr).2.getD t []).getD i 0 =
      (fwd.getD t []).getD i 0 * (bwd.getD t []).getD i 0 / lpr := by
  constructor
  · simp only [computeSufficientStatic]
    rw [getD_range_map _ _ ht, getD_range_map _ _ hi, getD_range_map _ _ hj]
  · simp only [computeSufficientStatic]
    rw [getD_range_map _ _ ht, getD_range_map _ _ hi]

/-- Witness for claim C4 with one state, one time step and `lpr = 2`. -/
theorem sufficient_statistics_entries_witness :
    ((0 : ℕ) < ([[(3 : ℚ)]] : List (List ℚ)).length ∧ (0 : ℕ) < 1 ∧ (0 : ℕ) < 1) ∧
    ((((computeSufficientStatic 1 [5] [[[7]]] [[3]] [[11]] [[13]] 2).1.getD 0 []).getD 0 []).getD
        0 0 =
      (if (0 : ℕ) = 0 then
        (([[(3 : ℚ)]] : List (List ℚ)).getD 0 []).getD 0 0 * ([(5 : ℚ)] : List ℚ).getD 0 0 *
          (([[(13 : ℚ)]] : List (List ℚ)).getD 0 []).getD 0 0 *
          ((([[[(7 : ℚ)]]] : List (List (List ℚ))).getD 0 []).getD 0 []).getD 0 0 / 2
      else
        (([[(3 : ℚ)]] : List (List ℚ)).getD 0 []).getD 0 0 *
          (([[(11 : ℚ)]] : List (List ℚ)).getD (0 - 1) []).getD 0 0 *
          (([[(13 : ℚ)]] : List (List ℚ)).getD 0 []).getD 0 0 *
          ((([[[(7 : ℚ)]]] : List (List (List ℚ))).getD 0 []).getD 0 []).getD 0 0 / 2) ∧
    ((computeSufficientStatic 1 [5] [[[7]]] [[3]] [[11]] [[13]] 2).2.getD 0 []).getD 0 0 =
      (([[(11 : ℚ)]] : List (List ℚ)).getD 0 []).getD 0 0 *
        (([[(13 : ℚ)]] : List (List ℚ)).getD 0 []).getD 0 0 / 2) :=
  ⟨⟨by decide, by decide, by decide⟩,
    sufficient_statistics_entries 1 [5] [[[7]]] [[3]] [[11]] [[13]] 2 0 0 0
      (by decide) (by decide) (by decide)⟩

/-- Claim C5 (settled against the code): `_compute_transmat` raises
`TypeError` for every input, because its first statement calls the
one-argument builtin `len` with three arguments; no softmax transition
tensor is ever produced. -/
theorem compute_transmat_always_type_error (m : IOHMM) (insSeq : List (List ℚ)) :
    computeTransmat m insSeq =
      Except.error "TypeError: len() takes exactly one argument (3 given)" := rfl

/-- Claim C6 (settled against the code): on a corpus of two sequences
with `n_iter = 1`, `fit` raises `TypeError` inside the E-step of the
first sequence, so no per-sequence statistics are ever accumulated and
the M-step never runs on corpus-wide statistics.  (Independently,
`_compute_sufficient_static` takes no accumulator argument and
overwrites `self.trans_posts` and `self.state_posts`, so even a
repaired call chain would hand the M-step the statistics of the last
sequence only.) -/
theorem fit_two_sequences_never_accumulates :
    fit ⟨2, [1/2, 1/2], [[[1/2, 1/2], [1/2, 1/2]], [[1/2, 1/2], [1/2, 1/2]]],
        [[[1], [2]], [[3], [4]]], 1, 1/100⟩ [[[5], [6]], [[7], [8]]] =
      Except.error "TypeError: len() takes exactly one argument (3 given)" := rfl

/-- Claim C7 (settled against the code): on a corpus of one sequence
with `n_iter = 2` and `thresh = 1/100`, `fit` raises `TypeError` in the
first E-step, so the convergence check is never executed; moreover the
guard `i > 0` of the check reads the inner sequence-loop variable, which
is `len(obs) - 1 = 0` for a one-sequence corpus, so even a repaired
E-step could never stop early here. -/
theorem fit_one_sequence_never_reaches_convergence_check :
    fit ⟨1, [1], [[[1/2, 1/2]]], [[[1], [2]]], 2, 1/100⟩ [[[3], [4]]] =
      Except.error "TypeError: len() takes exactly one argument (3 given)" := rfl

/-- Counterexample to claim C8: with `startprob = [1]`,
`transmat = [[[1]]]` and `framelogprob = [[0]]` the unscaled initial
row sums to zero, yet the forward pass returns normally instead of
aborting with an `Underflow` error: the recursion produces full output,
with the division-by-zero artefact in the scaling-factor slot (`0` for
the total division of `ℚ`; `inf` in the IEEE arithmetic of the source,
raised only as a `RuntimeWarning`, never as an error). -/
theorem forward_pass_zero_sum_returns_normally :
    (elemMul (matTvec (([[[(1 : ℚ)]]] : List (List (List ℚ))).headD []) [1])
        (([[(0 : ℚ)]] : List (List ℚ)).headD [])).sum = 0 ∧
    forwardRecursion [1] [[[1]]] [[0]] = ([[0]], [0]) := by
  constructor
  · norm_num [elemMul, matTvec, List.range_succ]
  · norm_num [forwardRecursion, forwardLoop, forwardStep, elemMul, matTvec, List.range_succ]

/-- Claim C8 as amended: when the unscaled initial row sums to zero the
forward pass raises no error and is not aborted; it still produces a
lattice and a scaling-factor list of full length `T`, and the initial
scaling factor is the unchecked division `1 / 0` (which the total
division of `ℚ` evaluates to `0` and IEEE arithmetic to `inf`). -/
theorem forward_pass_zero_sum_completes (sp : List ℚ)
    (tm : List (List (List ℚ))) (fl : List (List ℚ)) (h : 0 < fl.length)
    (hz : (elemMul (matTvec (tm.headD []) sp) (fl.headD [])).sum = 0) :
    (forwardRecursion sp tm fl).1.length = fl.length ∧
    (forwardRecursion sp tm fl).2.length = fl.length ∧
    (forwardRecursion sp tm fl).2.getD 0 0 = 1 / 0 := by
  obtain ⟨h1, h2⟩ := forwardLoop_length (tm.headD []) fl sp
  refine ⟨h1, h2, ?_⟩
  have hspec := (forwardLoop_getD (tm.headD []) fl sp 0 h).2
  rw [if_pos rfl] at hspec
  rw [headD_eq_getD_zero fl []] at hz
  simp only [forwardRecursion]
  rw [hspec]
  simp only [forwardStep]
  rw [hz]

/-- Witness for the amended claim C8 at the concrete zero-sum input. -/
theorem forward_pass_zero_sum_completes_witness :
    ((0 : ℕ) < ([[(0 : ℚ)]] : List (List ℚ)).length ∧
      (elemMul (matTvec (([[[(1 : ℚ)]]] : List (List (List ℚ))).headD []) [1])
        (([[(0 : ℚ)]] : List (List ℚ)).headD [])).sum = 0) ∧
    ((forwardRecursion [1] [[[1]]] [[0]]).1.length = ([[(0 : ℚ)]] : List (List ℚ)).length ∧
    (forwardRecursion [1] [[[1]]] [[0]]).2.length = ([[(0 : ℚ)]] : List (List ℚ)).length ∧
    (forwardRecursion [1] [[[1]]] [[0]]).2.getD 0 0 = 1 / 0) :=
  ⟨⟨by decide, by norm_num [elemMul, matTvec, List.range_succ]⟩,
    forward_pass_zero_sum_completes [1] [[[1]]] [[0]] (by decide)
      (by norm_num [elemMul, matTvec, List.range_succ])⟩

/-- Claim C9: with `n_iter = 0` the EM loop of `fit` runs zero
iterations; only the (no-op) initialization runs, the model state is
returned unchanged, and in particular `trans_weight_mat` keeps exactly
the value it had when `_init` returned. -/
theorem fit_zero_iterations_is_identity (m : IOHMM) (obs : List (List (List ℚ)))
    (h : m.nIter = 0) :
    fit m obs = Except.ok m ∧
    Except.map IOHMM.transWeightMat (fit m obs) = Except.ok m.transWeightMat := by
  have h1 : fit m obs = Except.ok m := by
    simp only [fit, h]
    rfl
  exact ⟨h1, by rw [h1]; rfl⟩

/-- Witness for claim C9 on a concrete one-sequence model. -/
theorem fit_zero_iterations_is_identity_witness :
    (IOHMM.mk 1 [1] [[[1/2, 1/2]]] [[[1]]] 0 (1/100)).nIter = 0 ∧
    (fit (IOHMM.mk 1 [1] [[[1/2, 1/2]]] [[[1]]] 0 (1/100)) [[[1]]] =
      Except.ok (IOHMM.mk 1 [1] [[[1/2, 1/2]]] [[[1]]] 0 (1/100)) ∧
    Except.map IOHMM.transWeightMat
        (fit (IOHMM.mk 1 [1] [[[1/2, 1/2]]] [[[1]]] 0 (1/100)) [[[1]]]) =
      Except.ok (IOHMM.mk 1 [1] [[[1/2, 1/2]]] [[[1]]] 0 (1/100)).transWeightMat) :=
  ⟨rfl, fit_zero_iterations_is_identity (IOHMM.mk 1 [1] [[[1/2, 1/2]]] [[[1]]] 0 (1/100))
    [[[1]]] rfl⟩

/-- Claim C10: for every constructible model (non-empty `ins`) and
non-empty corpus, `fit` with `n_iter >= 1` raises the `TypeError` of
`_compute_transmat` during the E-step of the first sequence, before any
convergence check or M-step; and with an empty corpus it raises
NameError at the `logprob` append, so `fit` completes without raising
only when `n_iter = 0`. -/
theorem fit_first_estep_always_raises (m : IOHMM) (obs : List (List (List ℚ)))
    (h1 : 0 < obs.length) (h2 : 0 < m.ins.length) (h3 : 1 ≤ m.nIter) :
    fit m obs = Except.error "TypeError: len() takes exactly one argument (3 given)" ∧
    fit m [] = Except.error "NameError: name lpr is not defined" := by
  obtain ⟨k, hk⟩ : ∃ k, m.nIter = k + 1 := ⟨m.nIter - 1, by omega⟩
  constructor
  · cases obs with
    | nil => simp at h1
    | cons o orest =>
      cases hins : m.ins with
      | nil => rw [hins] at h2; simp at h2
      | cons insSeq insRest =>
        simp [fit, hk, fitLoop, fitIter, fitEStepFirstSeq, hins, computeTransmat]
  · simp [fit, hk, fitLoop, fitIter]

/-- Witness for claim C10 on a concrete model with one iteration. -/
theorem fit_first_estep_always_raises_witness :
    ((0 : ℕ) < ([[[(1 : ℚ)]]] : List (List (List ℚ))).length ∧
      (0 : ℕ) < (IOHMM.mk 1 [1] [[[1/2, 1/2]]] [[[1]]] 1 (1/100)).ins.length ∧
      (1 : ℕ) ≤ (IOHMM.mk 1 [1] [[[1/2, 1/2]]] [[[1]]] 1 (1/100)).nIter) ∧
    (fit (IOHMM.mk 1 [1] [[[1/2, 1/2]]] [[[1]]] 1 (1/100)) [[[1]]] =
      Except.error "TypeError: len() takes exactly one argument (3 given)" ∧
    fit (IOHMM.mk 1 [1] [[[1/2, 1/2]]] [[[1]]] 1 (1/100)) [] =
      Except.error "NameError: name lpr is not defined") :=
  ⟨⟨by decide, by decide, by decide⟩,
    fit_first_estep_always_raises (IOHMM.mk 1 [1] [[[1/2, 1/2]]] [[[1]]] 1 (1/100))
      [[[1]]] (by decide) (by decide) (by decide)⟩
